import Mathlib

/-!
Verification of the sequence-name-to-id resolver of the bento-mcp
repository (`src/sequence-resolution.ts`), shallowly embedded in Lean.

The resolver `resolveSequenceId` receives an optional `sequenceId`, an
optional `sequenceName` and an injected asynchronous page fetcher
`getSequences`.  We embed the fetcher as a function
`Nat → Except ε (Option (List BentoSequence))`: `Except.error` models a
rejected promise, `Except.ok none` models a `null`/`undefined` page and
`Except.ok (some l)` a delivered page.  Because the TypeScript loop
performs its page fetches strictly sequentially, the whole resolution is
a deterministic function of the fetcher; the embedding additionally
returns the list of page numbers passed to the fetcher, in call order,
so that claims about how often and in which order the collaborator is
invoked become statements about that trace.
-/

/-- `BentoSequence.attributes?: { name?: string }` from the source. -/
structure SequenceAttributes where
  name : Option String
deriving Repr, DecidableEq

/-- `export type BentoSequence = { id: string; attributes?: { name?: string } }`. -/
structure BentoSequence where
  id : String
  attributes : Option SequenceAttributes
deriving Repr, DecidableEq

/-- `const MAX_SEQUENCE_PAGES = 100`. -/
def MAX_SEQUENCE_PAGES : Nat := 100

/-- JavaScript `String.prototype.trim()`: strip leading and trailing
whitespace (restricted here to the ASCII whitespace the repository's
data uses). -/
def jsTrim (s : String) : String :=
  String.mk (((s.data.dropWhile Char.isWhitespace).reverse.dropWhile Char.isWhitespace).reverse)

/-- JavaScript `String.prototype.toLowerCase()` (ASCII case folding,
which covers every name the repository handles). -/
def jsToLower (s : String) : String :=
  String.mk (s.data.map Char.toLower)

/-- `normalizeName(value)`: trim; an absent or whitespace-only value gives
`null`, otherwise the trimmed value lower-cased. -/
def normalizeName (value : Option String) : Option String :=
  match value.map jsTrim with
  | none => none
  | some trimmed => if trimmed = "" then none else some (jsToLower trimmed)

/-- The predicate of the `sequences.find(...)` call in the loop body:
`normalizeName(sequence.attributes?.name) === normalizedSequenceName`. -/
def matchesName (normalizedSequenceName : String) (sequence : BentoSequence) : Bool :=
  normalizeName (sequence.attributes.bind SequenceAttributes.name) == some normalizedSequenceName

/-- The `while (page <= MAX_SEQUENCE_PAGES)` loop of `resolveSequenceId`,
as fuel recursion: at page number `page` the remaining fuel is
`MAX_SEQUENCE_PAGES - page + 1`, so fuel `0` is exactly the loop guard
failing.  The second component is the trace of pages fetched. -/
def searchSequencePages {ε : Type} (getSequences : Nat → Except ε (Option (List BentoSequence)))
    (normalizedSequenceName : String) :
    Nat → Nat → Except ε (Option String) × List Nat
  | _, 0 => (Except.ok none, [])
  | page, fuel + 1 =>
    match getSequences page with
    | Except.error e => (Except.error e, [page])
    | Except.ok none => (Except.ok none, [page])
    | Except.ok (some sequences) =>
      if sequences.length = 0 then (Except.ok none, [page])
      else
        match sequences.find? (matchesName normalizedSequenceName) with
        | some m => (Except.ok (some m.id), [page])
        | none =>
          let rest := searchSequencePages getSequences normalizedSequenceName (page + 1) fuel
          (rest.1, page :: rest.2)

/-- The branch of `resolveSequenceId` taken once the fast id path has been
ruled out: normalize the name, bail out on `null`, otherwise run the
pagination loop from page 1. -/
def resolveByName {ε : Type} (sequenceName : Option String)
    (getSequences : Nat → Except ε (Option (List BentoSequence))) :
    Except ε (Option String) × List Nat :=
  match normalizeName sequenceName with
  | none => (Except.ok none, [])
  | some normalizedSequenceName =>
    searchSequencePages getSequences normalizedSequenceName 1 MAX_SEQUENCE_PAGES

/-- `resolveSequenceId({sequenceId, sequenceName, getSequences})`.  The
JavaScript truthiness test `if (normalizedSequenceId)` succeeds exactly
when `sequenceId?.trim()` is a non-empty string. -/
def resolveSequenceId {ε : Type} (sequenceId sequenceName : Option String)
    (getSequences : Nat → Except ε (Option (List BentoSequence))) :
    Except ε (Option String) × List Nat :=
  match sequenceId.map jsTrim with
  | some normalizedSequenceId =>
    if normalizedSequenceId = "" then resolveByName sequenceName getSequences
    else (Except.ok (some normalizedSequenceId), [])
  | none => resolveByName sequenceName getSequences

/-- A page on which the loop neither stops nor matches: delivered,
non-empty, and containing no entity whose normalized name equals the
target. -/
def NonMatchingPage {ε : Type} (getSequences : Nat → Except ε (Option (List BentoSequence)))
    (normalizedSequenceName : String) (page : Nat) : Prop :=
  ∃ sequences, getSequences page = Except.ok (some sequences) ∧ sequences ≠ [] ∧
    sequences.find? (matchesName normalizedSequenceName) = none

/-! ### Loop lemmas -/

/-- One iteration of the loop on a delivered, non-empty, matchless page:
the loop fetches that page, finds nothing, and continues at the next page
with one unit of fuel spent. -/
theorem searchSequencePages_skip {ε : Type}
    (getSequences : Nat → Except ε (Option (List BentoSequence)))
    (target : String) (page fuel : Nat)
    (h : NonMatchingPage getSequences target page) :
    searchSequencePages getSequences target page (fuel + 1)
      = ((searchSequencePages getSequences target (page + 1) fuel).1,
         page :: (searchSequencePages getSequences target (page + 1) fuel).2) := by
  obtain ⟨sequences, hfetch, hne, hfind⟩ := h
  simp [searchSequencePages, hfetch, hfind, List.length_eq_zero, hne]

/-- Running the loop across a block of matchless pages `page ≤ q < k`:
the loop reaches page `k` having recorded exactly the pages
`page, page+1, …, k-1` on its trace and spent one unit of fuel per page. -/
theorem searchSequencePages_run {ε : Type}
    (getSequences : Nat → Except ε (Option (List BentoSequence)))
    (target : String) (page k fuel : Nat) (hpk : page ≤ k) (hfuel : k - page ≤ fuel)
    (hbefore : ∀ q, page ≤ q → q < k → NonMatchingPage getSequences target q) :
    searchSequencePages getSequences target page fuel
      = ((searchSequencePages getSequences target k (fuel - (k - page))).1,
         List.range' page (k - page)
           ++ (searchSequencePages getSequences target k (fuel - (k - page))).2) := by
  induction fuel generalizing page with
  | zero =>
    have hk : page = k := by omega
    subst hk
    simp
  | succ f ih =>
    rcases Nat.eq_or_lt_of_le hpk with heq | hlt
    · subst heq
      simp
    · have h1 : k - page = (k - (page + 1)) + 1 := by omega
      have h2 : f + 1 - (k - page) = f - (k - (page + 1)) := by omega
      rw [searchSequencePages_skip getSequences target page f
            (hbefore page le_rfl hlt),
          ih (page + 1) hlt (by omega)
            (fun q hq1 hq2 => hbefore q (by omega) hq2),
          h2, h1, List.range'_succ]
      simp

/-! ### Fixtures from the repository's pagination test doubles -/

/-- `createNearMatchThenExactPages()`: page 1 has a near (substring)
match, page 2 an exact match up to trimming and case; pages past the
record are `undefined`. -/
def createNearMatchThenExactPages : Nat → Option (List BentoSequence)
  | 1 => some [⟨"sequence_near_match", some ⟨some "Welcome Flow Extended"⟩⟩]
  | 2 => some [⟨"sequence_exact_match", some ⟨some "  WELCOME FLOW  "⟩⟩]
  | _ => none

/-- `createNoMatchPages()`: three pages of entities none of which matches
the searched names used in the tests. -/
def createNoMatchPages : Nat → Option (List BentoSequence)
  | 1 => some [⟨"sequence_first", some ⟨some "Welcome Sequence"⟩⟩]
  | 2 => some [⟨"sequence_second", some ⟨some "Post Purchase"⟩⟩]
  | 3 => some [⟨"sequence_third", some ⟨some "Newsletter"⟩⟩]
  | _ => none

/-- A fetcher that never rejects, serving a paged record (`undefined`
pages become `Except.ok none`, as a resolved promise of `undefined`). -/
def fetcherOf (pages : Nat → Option (List BentoSequence)) :
    Nat → Except Unit (Option (List BentoSequence)) :=
  fun page => Except.ok (pages page)

/-- The misbehaving collaborator of the ceiling test: every page holds
one synthetic non-matching entity, exhaustion is never signalled. -/
def syntheticEndlessFetcher : Nat → Except Unit (Option (List BentoSequence)) :=
  fun _ => Except.ok (some [⟨"sequence_synthetic", some ⟨some "Synthetic Sequence"⟩⟩])

/-! ### Claims -/

/-- C1.  Fast path: a `sequenceId` that is non-empty after trimming is
returned trimmed, and the page fetcher is invoked zero times (empty
trace), whatever `sequenceName` is supplied. -/
theorem resolveSequenceId_fast_path {ε : Type} (sequenceId : String)
    (sequenceName : Option String)
    (getSequences : Nat → Except ε (Option (List BentoSequence)))
    (h : jsTrim sequenceId ≠ "") :
    resolveSequenceId (some sequenceId) sequenceName getSequences
      = (Except.ok (some (jsTrim sequenceId)), []) := by
  simp [resolveSequenceId, h]

/-- Witness for C1 at the concrete input `" seq_123 "` with a name also
supplied. -/
theorem resolveSequenceId_fast_path_witness :
    jsTrim " seq_123 " ≠ "" ∧
      resolveSequenceId (some " seq_123 ") (some "Welcome Flow")
          (fetcherOf createNearMatchThenExactPages)
        = (Except.ok (some "seq_123"), []) :=
  ⟨by decide,
   resolveSequenceId_fast_path " seq_123 " (some "Welcome Flow")
     (fetcherOf createNearMatchThenExactPages) (by decide)⟩

/-- C2.  Empty-input short-circuit: when the id is absent or trims to
empty and the name is absent, empty or whitespace-only, the resolver
returns `null` and the fetcher is invoked zero times. -/
theorem resolveSequenceId_empty_inputs {ε : Type}
    (sequenceId sequenceName : Option String)
    (getSequences : Nat → Except ε (Option (List BentoSequence)))
    (hid : ∀ s ∈ sequenceId, jsTrim s = "")
    (hname : ∀ n ∈ sequenceName, jsTrim n = "") :
    resolveSequenceId sequenceId sequenceName getSequences
      = (Except.ok none, []) := by
  have hnn : normalizeName sequenceName = none := by
    cases sequenceName with
    | none => rfl
    | some n => simp [normalizeName, hname n rfl]
  cases sequenceId with
  | none => simp [resolveSequenceId, resolveByName, hnn]
  | some s => simp [resolveSequenceId, resolveByName, hid s rfl, hnn]

/-- Witness for C2: empty-after-trim id together with a whitespace-only
name. -/
theorem resolveSequenceId_empty_inputs_witness :
    (∀ s ∈ (some "  " : Option String), jsTrim s = "") ∧
      (∀ n ∈ (some " " : Option String), jsTrim n = "") ∧
      resolveSequenceId (some "  ") (some " ")
          (fetcherOf createNearMatchThenExactPages)
        = (Except.ok none, []) :=
  ⟨by decide, by decide,
   resolveSequenceId_empty_inputs (some "  ") (some " ")
     (fetcherOf createNearMatchThenExactPages) (by decide) (by decide)⟩

/-- C10.  A whitespace-only `sequenceId` behaves exactly as an absent
one: same result and same fetch trace, for every name and fetcher; in
particular the blank id is never returned and resolution proceeds by
name. -/
theorem resolveSequenceId_blank_id_ignored {ε : Type} (sequenceId : String)
    (sequenceName : Option String)
    (getSequences : Nat → Except ε (Option (List BentoSequence)))
    (h : jsTrim sequenceId = "") :
    resolveSequenceId (some sequenceId) sequenceName getSequences
      = resolveSequenceId none sequenceName getSequences := by
  simp [resolveSequenceId, h]

/-- Witness for C10 at the whitespace id `"   "` and a name that only
page 2 matches. -/
theorem resolveSequenceId_blank_id_ignored_witness :
    jsTrim "   " = "" ∧
      resolveSequenceId (some "   ") (some "welcome flow")
          (fetcherOf createNearMatchThenExactPages)
        = resolveSequenceId none (some "welcome flow")
            (fetcherOf createNearMatchThenExactPages) :=
  ⟨by decide,
   resolveSequenceId_blank_id_ignored "   " (some "welcome flow")
     (fetcherOf createNearMatchThenExactPages) (by decide)⟩

/-- Appending the final visited page to the trace of the pages before it
gives the contiguous block `1, …, k`. -/
theorem range'_one_append_last (k : Nat) (hk : 1 ≤ k) :
    List.range' 1 (k - 1) ++ [k] = List.range' 1 k := by
  conv_rhs => rw [show k = (k - 1) + 1 by omega]
  rw [List.range'_1_concat, show 1 + (k - 1) = k by omega]

/-- The trace of the loop is always a contiguous block of page numbers
starting at the page the loop entered with, of length at most the fuel. -/
theorem searchSequencePages_trace_range {ε : Type}
    (getSequences : Nat → Except ε (Option (List BentoSequence)))
    (target : String) (fuel : Nat) :
    ∀ page, ∃ j, j ≤ fuel ∧
      (searchSequencePages getSequences target page fuel).2 = List.range' page j := by
  induction fuel with
  | zero => exact fun page => ⟨0, le_rfl, rfl⟩
  | succ n ih =>
    intro page
    rcases hfp : getSequences page with e | os
    · exact ⟨1, by omega, by simp [searchSequencePages, hfp]⟩
    · rcases os with _ | seqs
      · exact ⟨1, by omega, by simp [searchSequencePages, hfp]⟩
      · by_cases hlen : seqs.length = 0
        · exact ⟨1, by omega, by simp [searchSequencePages, hfp, hlen]⟩
        · rcases hfind : seqs.find? (matchesName target) with _ | m
          · obtain ⟨j, hj, htr⟩ := ih (page + 1)
            refine ⟨j + 1, by omega, ?_⟩
            simp [searchSequencePages, hfp, hlen, hfind, htr, List.range'_succ]
          · exact ⟨1, by omega, by simp [searchSequencePages, hfp, hlen, hfind]⟩

/-- When the id path is ruled out and pages `1, …, k-1` are matchless,
resolution is the loop resumed at page `k` with the corresponding fuel,
prefixed by the trace `1, …, k-1`. -/
theorem resolveSequenceId_reaches {ε : Type} (sequenceId sequenceName : Option String)
    (getSequences : Nat → Except ε (Option (List BentoSequence)))
    (target : String) (k : Nat)
    (hid : ∀ s ∈ sequenceId, jsTrim s = "")
    (hname : normalizeName sequenceName = some target)
    (hk1 : 1 ≤ k) (hk : k ≤ MAX_SEQUENCE_PAGES)
    (hbefore : ∀ q, 1 ≤ q → q < k → NonMatchingPage getSequences target q) :
    resolveSequenceId sequenceId sequenceName getSequences
      = ((searchSequencePages getSequences target k (MAX_SEQUENCE_PAGES - (k - 1))).1,
         List.range' 1 (k - 1)
           ++ (searchSequencePages getSequences target k (MAX_SEQUENCE_PAGES - (k - 1))).2) := by
  have hres : resolveSequenceId sequenceId sequenceName getSequences
      = searchSequencePages getSequences target 1 MAX_SEQUENCE_PAGES := by
    cases sequenceId with
    | none => simp [resolveSequenceId, resolveByName, hname]
    | some s => simp [resolveSequenceId, resolveByName, hid s rfl, hname]
  rw [hres,
    searchSequencePages_run getSequences target 1 k MAX_SEQUENCE_PAGES hk1 (by omega) hbefore]

/-- A paged record whose second page holds the first of three entities
that all normalize to the same name (two on page 2, one on page 3). -/
def duplicateMatchPages : Nat → Option (List BentoSequence)
  | 1 => some [⟨"sequence_filler", some ⟨some "Filler"⟩⟩]
  | 2 => some [⟨"sequence_target_a", some ⟨some "Target Flow"⟩⟩,
               ⟨"sequence_target_b", some ⟨some "target flow"⟩⟩]
  | 3 => some [⟨"sequence_target_c", some ⟨some "Target Flow"⟩⟩]
  | _ => none

/-- The exhaustion fixture of the spec: the three non-matching pages of
`createNoMatchPages` followed by an explicitly empty fourth page. -/
def exhaustedAfterThreePages : Nat → Option (List BentoSequence)
  | 4 => some []
  | page => createNoMatchPages page

/-- C3.  Exact-match-only: normalized comparison is exact string
equality, not substring containment.  `"Welcome Flow Extended"` does not
match the target `"welcome flow"`, while `"  WELCOME FLOW  "` does after
trimming and lower-casing; over the two-page fixture the resolver
returns the second page's id having fetched exactly pages 1 and 2. -/
theorem resolveSequenceId_exact_match_only :
    matchesName "welcome flow"
        ⟨"sequence_near_match", some ⟨some "Welcome Flow Extended"⟩⟩ = false
      ∧ matchesName "welcome flow"
          ⟨"sequence_exact_match", some ⟨some "  WELCOME FLOW  "⟩⟩ = true
      ∧ resolveSequenceId none (some "welcome flow")
            (fetcherOf createNearMatchThenExactPages)
          = (Except.ok (some "sequence_exact_match"), [1, 2]) :=
  ⟨rfl, rfl, rfl⟩

/-- C4.  First-match selection: if pages `1, …, k-1` are delivered,
non-empty and matchless and page `k` is delivered with
`find?` — the first entity of the page, in page order, whose normalized
name equals the target — returning `m`, then resolution returns `m`'s id
with fetch trace exactly `1, …, k`.  Nothing after the first match (later
duplicates on page `k`, or any later page) influences the result, and no
ambiguity is ever reported. -/
theorem resolveSequenceId_first_match {ε : Type} (sequenceId sequenceName : Option String)
    (getSequences : Nat → Except ε (Option (List BentoSequence)))
    (target : String) (k : Nat) (seqs : List BentoSequence) (m : BentoSequence)
    (hid : ∀ s ∈ sequenceId, jsTrim s = "")
    (hname : normalizeName sequenceName = some target)
    (hk1 : 1 ≤ k) (hk : k ≤ MAX_SEQUENCE_PAGES)
    (hbefore : ∀ q, 1 ≤ q → q < k → NonMatchingPage getSequences target q)
    (hfetch : getSequences k = Except.ok (some seqs))
    (hfind : seqs.find? (matchesName target) = some m) :
    resolveSequenceId sequenceId sequenceName getSequences
      = (Except.ok (some m.id), List.range' 1 k) := by
  rw [resolveSequenceId_reaches sequenceId sequenceName getSequences target k
      hid hname hk1 hk hbefore]
  have hm : MAX_SEQUENCE_PAGES - (k - 1) = (MAX_SEQUENCE_PAGES - k) + 1 := by omega
  have hlen : ¬ seqs.length = 0 := by
    intro h0
    rw [List.length_eq_zero.mp h0] at hfind
    simp at hfind
  rw [hm]
  simp [searchSequencePages, hfetch, hfind, hlen, range'_one_append_last k hk1]

/-- Witness for C4: the first of three same-named entities (two of them
beyond the first) is returned, with trace `[1, 2]`. -/
theorem resolveSequenceId_first_match_witness :
    resolveSequenceId none (some "Target Flow") (fetcherOf duplicateMatchPages)
      = (Except.ok (some "sequence_target_a"), [1, 2]) :=
  resolveSequenceId_first_match none (some "Target Flow") (fetcherOf duplicateMatchPages)
    "target flow" 2
    [⟨"sequence_target_a", some ⟨some "Target Flow"⟩⟩,
     ⟨"sequence_target_b", some ⟨some "target flow"⟩⟩]
    ⟨"sequence_target_a", some ⟨some "Target Flow"⟩⟩
    (by decide) rfl (by decide) (by decide)
    (fun q h1 h2 => by
      have hq : q = 1 := by omega
      subst hq
      exact ⟨[⟨"sequence_filler", some ⟨some "Filler"⟩⟩], rfl, by decide, rfl⟩)
    rfl rfl

/-- C5.  Exhaustion: a page delivered as `null`/`undefined` or as the
empty list ends the search with not-found; with matchless pages before
it, the fetch trace is exactly `1, …, k` where `k` is the terminating
page. -/
theorem resolveSequenceId_exhaustion {ε : Type} (sequenceId sequenceName : Option String)
    (getSequences : Nat → Except ε (Option (List BentoSequence)))
    (target : String) (k : Nat)
    (hid : ∀ s ∈ sequenceId, jsTrim s = "")
    (hname : normalizeName sequenceName = some target)
    (hk1 : 1 ≤ k) (hk : k ≤ MAX_SEQUENCE_PAGES)
    (hbefore : ∀ q, 1 ≤ q → q < k → NonMatchingPage getSequences target q)
    (hend : getSequences k = Except.ok none
      ∨ getSequences k = Except.ok (some [])) :
    resolveSequenceId sequenceId sequenceName getSequences
      = (Except.ok none, List.range' 1 k) := by
  rw [resolveSequenceId_reaches sequenceId sequenceName getSequences target k
      hid hname hk1 hk hbefore]
  have hm : MAX_SEQUENCE_PAGES - (k - 1) = (MAX_SEQUENCE_PAGES - k) + 1 := by omega
  rw [hm]
  rcases hend with hend | hend
  · simp [searchSequencePages, hend, range'_one_append_last k hk1]
  · simp [searchSequencePages, hend, range'_one_append_last k hk1]

/-- Witness for C5, the spec's concrete scenario: three non-matching
pages, an empty fourth page, result `null` with trace `[1, 2, 3, 4]`. -/
theorem resolveSequenceId_exhaustion_witness :
    resolveSequenceId none (some "Launch Campaign") (fetcherOf exhaustedAfterThreePages)
      = (Except.ok none, [1, 2, 3, 4]) :=
  resolveSequenceId_exhaustion none (some "Launch Campaign")
    (fetcherOf exhaustedAfterThreePages) "launch campaign" 4
    (by decide) rfl (by decide) (by decide)
    (fun q h1 h2 => by
      interval_cases q
      · exact ⟨[⟨"sequence_first", some ⟨some "Welcome Sequence"⟩⟩], rfl, by decide, rfl⟩
      · exact ⟨[⟨"sequence_second", some ⟨some "Post Purchase"⟩⟩], rfl, by decide, rfl⟩
      · exact ⟨[⟨"sequence_third", some ⟨some "Newsletter"⟩⟩], rfl, by decide, rfl⟩)
    (Or.inr rfl)

/-- The name-search branch never fetches more than the page ceiling. -/
theorem resolveByName_fetch_count_le {ε : Type} (sequenceName : Option String)
    (getSequences : Nat → Except ε (Option (List BentoSequence))) :
    (resolveByName sequenceName getSequences).2.length ≤ MAX_SEQUENCE_PAGES := by
  cases hnn : normalizeName sequenceName with
  | none => simp [resolveByName, hnn]
  | some target =>
    obtain ⟨j, hj, htr⟩ :=
      searchSequencePages_trace_range getSequences target MAX_SEQUENCE_PAGES 1
    simp [resolveByName, hnn, htr, hj]

/-- No resolution call ever fetches more than `MAX_SEQUENCE_PAGES`
pages. -/
theorem resolveSequenceId_fetch_count_le {ε : Type} (sequenceId sequenceName : Option String)
    (getSequences : Nat → Except ε (Option (List BentoSequence))) :
    (resolveSequenceId sequenceId sequenceName getSequences).2.length
      ≤ MAX_SEQUENCE_PAGES := by
  cases sequenceId with
  | none =>
    simpa [resolveSequenceId] using resolveByName_fetch_count_le sequenceName getSequences
  | some s =>
    by_cases hs : jsTrim s = ""
    · simpa [resolveSequenceId, hs] using resolveByName_fetch_count_le sequenceName getSequences
    · simp [resolveSequenceId, hs]

/-- C6.  Ceiling bound and termination: against a collaborator whose
first `MAX_SEQUENCE_PAGES` pages are all delivered, non-empty and
matchless (in particular one that never signals exhaustion), resolution
fetches exactly pages `1, …, 100` in order, returns `null`, and never
fetches page 101 (the trace is exactly `range' 1 100`); moreover every
resolution call whatsoever performs at most 100 fetches. -/
theorem resolveSequenceId_ceiling {ε : Type} (sequenceId sequenceName : Option String)
    (getSequences : Nat → Except ε (Option (List BentoSequence))) (target : String)
    (hid : ∀ s ∈ sequenceId, jsTrim s = "")
    (hname : normalizeName sequenceName = some target)
    (hall : ∀ q, 1 ≤ q → q ≤ MAX_SEQUENCE_PAGES → NonMatchingPage getSequences target q) :
    resolveSequenceId sequenceId sequenceName getSequences
        = (Except.ok none, List.range' 1 MAX_SEQUENCE_PAGES)
      ∧ ∀ (ε2 : Type) (sid sname : Option String)
          (f : Nat → Except ε2 (Option (List BentoSequence))),
          (resolveSequenceId sid sname f).2.length ≤ MAX_SEQUENCE_PAGES := by
  refine ⟨?_, fun ε2 sid sname f => resolveSequenceId_fetch_count_le sid sname f⟩
  have hres : resolveSequenceId sequenceId sequenceName getSequences
      = searchSequencePages getSequences target 1 MAX_SEQUENCE_PAGES := by
    cases sequenceId with
    | none => simp [resolveSequenceId, resolveByName, hname]
    | some s => simp [resolveSequenceId, resolveByName, hid s rfl, hname]
  rw [hres,
    searchSequencePages_run getSequences target 1 (MAX_SEQUENCE_PAGES + 1)
      MAX_SEQUENCE_PAGES (by omega) (by omega)
      (fun q h1 h2 => hall q h1 (by omega)),
    show MAX_SEQUENCE_PAGES - (MAX_SEQUENCE_PAGES + 1 - 1) = 0 by omega]
  simp [searchSequencePages]

/-- Witness for C6 with the spec's synthetic endless collaborator. -/
theorem resolveSequenceId_ceiling_witness :
    resolveSequenceId none (some "Missing Sequence") syntheticEndlessFetcher
      = (Except.ok none, List.range' 1 MAX_SEQUENCE_PAGES) :=
  (resolveSequenceId_ceiling none (some "Missing Sequence") syntheticEndlessFetcher
    "missing sequence" (by decide) rfl
    (fun q h1 h2 =>
      ⟨[⟨"sequence_synthetic", some ⟨some "Synthetic Sequence"⟩⟩], rfl, by decide, rfl⟩)).1

/-- `createPagesWithMatchOnPage({matchPage, matchName})`: pages 1 to
`matchPage` each carry two filler entities, and the match page
additionally carries the matching entity appended last; other pages are
`undefined`. -/
def createPagesWithMatchOnPage (matchPage : Nat) (matchName : String) :
    Nat → Option (List BentoSequence) :=
  fun page =>
    if 1 ≤ page ∧ page ≤ matchPage then
      some ([⟨"sequence_" ++ toString page ++ "_a",
              some ⟨some ("Sequence " ++ toString page ++ " A")⟩⟩,
             ⟨"sequence_" ++ toString page ++ "_b",
              some ⟨some ("Sequence " ++ toString page ++ " B")⟩⟩]
        ++ (if page = matchPage then
              [⟨"sequence_match_page_" ++ toString matchPage, some ⟨some matchName⟩⟩]
            else []))
    else none

/-- The trace of any resolution is a contiguous initial block of page
numbers `1, …, k`. -/
theorem resolveSequenceId_trace_shape {ε : Type} (sequenceId sequenceName : Option String)
    (getSequences : Nat → Except ε (Option (List BentoSequence))) :
    ∃ k, (resolveSequenceId sequenceId sequenceName getSequences).2
      = List.range' 1 k := by
  have hby : ∃ k, (resolveByName sequenceName getSequences).2 = List.range' 1 k := by
    cases hnn : normalizeName sequenceName with
    | none => exact ⟨0, by simp [resolveByName, hnn]⟩
    | some target =>
      obtain ⟨j, hj, htr⟩ :=
        searchSequencePages_trace_range getSequences target MAX_SEQUENCE_PAGES 1
      exact ⟨j, by simp [resolveByName, hnn, htr]⟩
  cases sequenceId with
  | none => simpa [resolveSequenceId] using hby
  | some s =>
    by_cases hs : jsTrim s = ""
    · simpa [resolveSequenceId, hs] using hby
    · exact ⟨0, by simp [resolveSequenceId, hs]⟩

/-- C7.  Sequential in-order pagination: in every execution the page
numbers passed to the fetcher are exactly `1, 2, …, k` for some `k ≥ 0`
(each page at most once, consecutive, starting at 1); and in the spec's
deep-pagination scenario — a match appearing only on page 11 — the
resolver fetches pages 1 through 11 in order, returns the match's id,
and fetches nothing beyond page 11. -/
theorem resolveSequenceId_sequential_pagination :
    (∀ (ε : Type) (sequenceId sequenceName : Option String)
        (getSequences : Nat → Except ε (Option (List BentoSequence))),
        ∃ k, (resolveSequenceId sequenceId sequenceName getSequences).2
          = List.range' 1 k)
      ∧ resolveSequenceId none (some "Target Sequence")
            (fetcherOf (createPagesWithMatchOnPage 11 "Target Sequence"))
          = (Except.ok (some "sequence_match_page_11"), List.range' 1 11) :=
  ⟨fun _ sequenceId sequenceName getSequences =>
    resolveSequenceId_trace_shape sequenceId sequenceName getSequences,
   rfl⟩

/-- A fetcher that rejects on its third page and serves the non-matching
record before that. -/
def failingThirdPageFetcher : Nat → Except String (Option (List BentoSequence))
  | 3 => Except.error "request failed"
  | page => Except.ok (createNoMatchPages page)

/-- C8.  Failure propagation: when pages `1, …, k-1` are matchless and
the fetch of page `k` rejects with `e`, the resolution completes with
that very error — no catch, no retry, no substituted value — and the
trace `1, …, k` shows each earlier page fetched exactly once and the
failing page fetched exactly once. -/
theorem resolveSequenceId_error_propagation {ε : Type}
    (sequenceId sequenceName : Option String)
    (getSequences : Nat → Except ε (Option (List BentoSequence)))
    (target : String) (k : Nat) (e : ε)
    (hid : ∀ s ∈ sequenceId, jsTrim s = "")
    (hname : normalizeName sequenceName = some target)
    (hk1 : 1 ≤ k) (hk : k ≤ MAX_SEQUENCE_PAGES)
    (hbefore : ∀ q, 1 ≤ q → q < k → NonMatchingPage getSequences target q)
    (herr : getSequences k = Except.error e) :
    resolveSequenceId sequenceId sequenceName getSequences
      = (Except.error e, List.range' 1 k) := by
  rw [resolveSequenceId_reaches sequenceId sequenceName getSequences target k
        hid hname hk1 hk hbefore,
      show MAX_SEQUENCE_PAGES - (k - 1) = (MAX_SEQUENCE_PAGES - k) + 1 by omega]
  simp [searchSequencePages, herr, range'_one_append_last k hk1]

/-- Witness for C8: two clean pages, a rejection on page 3. -/
theorem resolveSequenceId_error_propagation_witness :
    resolveSequenceId none (some "Launch Campaign") failingThirdPageFetcher
      = (Except.error "request failed", [1, 2, 3]) :=
  resolveSequenceId_error_propagation none (some "Launch Campaign")
    failingThirdPageFetcher "launch campaign" 3 "request failed"
    (by decide) rfl (by decide) (by decide)
    (fun q h1 h2 => by
      interval_cases q
      · exact ⟨[⟨"sequence_first", some ⟨some "Welcome Sequence"⟩⟩], rfl, by decide, rfl⟩
      · exact ⟨[⟨"sequence_second", some ⟨some "Post Purchase"⟩⟩], rfl, by decide, rfl⟩)
    rfl

/-- The loop is a function of the fetcher's responses only: pointwise
equal fetchers drive it identically. -/
theorem searchSequencePages_congr {ε : Type}
    (f g : Nat → Except ε (Option (List BentoSequence))) (target : String)
    (fuel : Nat) (h : ∀ page, f page = g page) :
    ∀ page, searchSequencePages f target page fuel
      = searchSequencePages g target page fuel := by
  induction fuel with
  | zero => intro page; rfl
  | succ n ih =>
    intro page
    cases hgp : g page with
    | error e => simp [searchSequencePages, h page, hgp]
    | ok os =>
      cases os with
      | none => simp [searchSequencePages, h page, hgp]
      | some seqs =>
        by_cases hlen : seqs.length = 0
        · simp [searchSequencePages, h page, hgp, hlen]
        · cases hfind : seqs.find? (matchesName target) with
          | none => simp [searchSequencePages, h page, hgp, hlen, hfind, ih]
          | some m => simp [searchSequencePages, h page, hgp, hlen, hfind]

/-- C9.  Determinism: with identical `sequenceId` and `sequenceName` and
a deterministic collaborator — embedded as two runs whose fetchers give
pointwise identical responses — the two resolutions produce the same
result and the same fetch-call sequence.  (No state survives a call: the
embedding is a pure function of its arguments, so two runs can differ
only through the fetcher.) -/
theorem resolveSequenceId_deterministic {ε : Type} (sequenceId sequenceName : Option String)
    (f g : Nat → Except ε (Option (List BentoSequence)))
    (h : ∀ page, f page = g page) :
    resolveSequenceId sequenceId sequenceName f
      = resolveSequenceId sequenceId sequenceName g := by
  have hby : resolveByName sequenceName f = resolveByName sequenceName g := by
    cases hnn : normalizeName sequenceName with
    | none => simp [resolveByName, hnn]
    | some target =>
      simp [resolveByName, hnn, searchSequencePages_congr f g target MAX_SEQUENCE_PAGES h 1]
  cases sequenceId with
  | none => simpa [resolveSequenceId] using hby
  | some s =>
    by_cases hs : jsTrim s = ""
    · simpa [resolveSequenceId, hs] using hby
    · simp [resolveSequenceId, hs]

/-- Witness for C9: the same record served through two syntactically
different fetchers. -/
theorem resolveSequenceId_deterministic_witness :
    resolveSequenceId none (some "welcome flow") (fetcherOf createNearMatchThenExactPages)
      = resolveSequenceId none (some "welcome flow")
          (fun page => Except.ok (createNearMatchThenExactPages page)) :=
  resolveSequenceId_deterministic none (some "welcome flow")
    (fetcherOf createNearMatchThenExactPages)
    (fun page => Except.ok (createNearMatchThenExactPages page))
    (fun _ => rfl)
